import Mathlib

/-
Verification of the merkle_tree crate (src/merkle_tree.rs, src/merkle_node.rs,
src/proof.rs, src/serialization.rs, src/error.rs).

Embedding conventions:
- Byte strings (Rust `Vec<u8>` / `&[u8]`) are `List Nat`, each entry one byte.
- `alloy_primitives::B256` (a 32-byte digest) is `List Nat` as well; the
  predicate `wfDigest` states the well-formedness that the Rust type enforces
  by construction (exactly 32 entries, each below 256).
- The two cryptographic hash functions the crate calls are external library
  code (`alloy_primitives::keccak256` and `alloy_signer::k256::sha2::Sha256`),
  so they enter the embedding as explicit function parameters named
  `keccak256` and `sha256`.  The crate calls `keccak256` in
  `MerkleNode::new_leaf`, `MerkleNode::new_internal`,
  `MerkleTree::verify_node` and `MerkleTree::generate_proof`, and `sha256`
  only in `MerkleProof::verify`; the embedding reproduces exactly that call
  placement.  Theorems quantify over both functions.
- `Result<T, MerkleTreeError>` is `Except MerkleTreeError T`.
- `HashMap<B256, Vec<u8>>` is an association list; `insertLeaf` models
  `HashMap::insert` (replacing an existing binding of the same key) and
  `containsKey` models `HashMap::contains_key`.  Only key membership and the
  key-value pairs matter to the verified claims, not bucket order.
-/

/-- Digest model: the 32 bytes of an `alloy_primitives::B256` value. -/
abbrev B256 := List Nat

/-- Error enum from src/error.rs.  The payloads of the library-error wrappers
are kept as plain strings. -/
inductive MerkleTreeError : Type where
  | EmptyData : MerkleTreeError
  | SerdeError : String → MerkleTreeError
  | HexDecodeError : String → MerkleTreeError
  | HashError : String → MerkleTreeError
  | InvalidProof : String → MerkleTreeError
  | IoError : String → MerkleTreeError
deriving DecidableEq

/-- Node of the tree, from src/merkle_node.rs: a hash plus two optional owned
children (`Option<Box<MerkleNode>>` loses the box in the embedding). -/
inductive MerkleNode : Type where
  | mk : B256 → Option MerkleNode → Option MerkleNode → MerkleNode

/-- Field accessor for `MerkleNode.hash`. -/
def MerkleNode.hash : MerkleNode → B256
  | .mk h _ _ => h

/-- Field accessor for `MerkleNode.left`. -/
def MerkleNode.left : MerkleNode → Option MerkleNode
  | .mk _ l _ => l

/-- Field accessor for `MerkleNode.right`. -/
def MerkleNode.right : MerkleNode → Option MerkleNode
  | .mk _ _ r => r

/-- `MerkleNode::new_leaf`: hash the record with keccak256, no children.
The Rust function returns `Result` but has no error path, so the embedding
returns the node directly. -/
def MerkleNode.new_leaf (keccak256 : List Nat → B256) (data : List Nat) : MerkleNode :=
  .mk (keccak256 data) none none

/-- `MerkleNode::new_internal`: concatenate the two child hashes (the
byte-iterator round trip in the source is the identity on the 32 hash bytes)
and hash with keccak256.  No error path, as in the source. -/
def MerkleNode.new_internal (keccak256 : List Nat → B256) (left right : MerkleNode) : MerkleNode :=
  .mk (keccak256 (left.hash ++ right.hash)) (some left) (some right)

/-- One step of a Merkle proof, from src/proof.rs: the sibling hash and the
side it sits on. -/
inductive ProofStep : Type where
  | Left : B256 → ProofStep
  | Right : B256 → ProofStep
deriving DecidableEq

/-- Merkle proof for one leaf, from src/proof.rs. -/
structure MerkleProof : Type where
  leaf_hash : B256
  proof_steps : List ProofStep
deriving DecidableEq

/-- `MerkleProof::verify`: replay the steps from the leaf hash, combining with
each sibling on its recorded side, then compare with the claimed root.  The
source recombines with `Sha256::digest`, not with the keccak256 used to build
trees; the embedding keeps that as the separate `sha256` parameter.  The
fold mirrors the `for step in &self.proof_steps` loop. -/
def MerkleProof.verify (sha256 : List Nat → B256) (p : MerkleProof) (root_hash : B256) :
    Except MerkleTreeError Bool :=
  let computed_hash := p.proof_steps.foldl
    (fun computed_hash step =>
      match step with
      | ProofStep.Left sibling_hash => sha256 (sibling_hash ++ computed_hash)
      | ProofStep.Right sibling_hash => sha256 (computed_hash ++ sibling_hash))
    p.leaf_hash
  .ok (computed_hash == root_hash)

/-- `HashMap::insert` on the association-list model: replace any existing
binding of the key, then bind the key to the new value. -/
def insertLeaf (m : List (B256 × List Nat)) (key : B256) (value : List Nat) :
    List (B256 × List Nat) :=
  m.filter (fun entry => !(entry.1 == key)) ++ [(key, value)]

/-- `HashMap::contains_key` on the association-list model. -/
def containsKey (m : List (B256 × List Nat)) (key : B256) : Bool :=
  m.any (fun entry => entry.1 == key)

/-- The Merkle tree, from src/merkle_tree.rs: root node plus the map from
leaf hash to record (the field marked serde(skip)). -/
structure MerkleTree : Type where
  root : MerkleNode
  leaves : List (B256 × List Nat)

/-- One pass of the `for i in (0..nodes.len()).step_by(2)` loop in
`MerkleTree::build_tree_recursive`: combine adjacent pairs; an unpaired
trailing node is promoted unchanged. -/
def combineLevel (keccak256 : List Nat → B256) : List MerkleNode → List MerkleNode
  | [] => []
  | [node] => [node]
  | left :: right :: rest =>
      MerkleNode.new_internal keccak256 left right :: combineLevel keccak256 rest

/-- `MerkleTree::build_tree_recursive` with an explicit fuel argument as the
termination device: the Rust function recurses on the combined level until one
node remains.  On the empty list the Rust function never terminates (each
level stays empty), which the embedding renders as `none`; with
`fuel ≥ nodes.length` the fuel-exhaustion branch is unreachable, because every
combining pass strictly shrinks a list of length at least two
(`buildTreeFuel_some` below). -/
def buildTreeFuel (keccak256 : List Nat → B256) : Nat → List MerkleNode → Option MerkleNode
  | _, [] => none
  | _, [node] => some node
  | 0, _ :: _ :: _ => none
  | fuel + 1, left :: right :: rest =>
      buildTreeFuel keccak256 fuel (combineLevel keccak256 (left :: right :: rest))

/-- `MerkleTree::build_tree_recursive`, entered with adequate fuel. -/
def MerkleTree.build_tree_recursive (keccak256 : List Nat → B256) (nodes : List MerkleNode) :
    Option MerkleNode :=
  buildTreeFuel keccak256 nodes.length nodes

/-- `MerkleTree::new`: reject empty input, hash every record into a leaf node
while filling the leaf map, then build the tree.  The single Rust loop that
builds `leaf_nodes` and `leaves_map` together is rendered as a map and a fold
over the same list.  The `none` arm of the final match is unreachable for
non-empty input (`buildTreeFuel_some` below); it stands for the
non-termination of the Rust recursion on an empty level. -/
def MerkleTree.new (keccak256 : List Nat → B256) (data : List (List Nat)) :
    Except MerkleTreeError MerkleTree :=
  if data = [] then .error .EmptyData
  else
    let leaf_nodes := data.map (fun datum => MerkleNode.new_leaf keccak256 datum)
    let leaves_map := data.foldl (fun m datum => insertLeaf m (keccak256 datum) datum) []
    match MerkleTree.build_tree_recursive keccak256 leaf_nodes with
    | some root => .ok { root := root, leaves := leaves_map }
    | none => .error (.HashError ("unreachable for non-empty input"))

/-- `MerkleTree::root_hash`. -/
def MerkleTree.root_hash (t : MerkleTree) : B256 :=
  t.root.hash

/-- `MerkleTree::verify_node`: a node with no children is trivially valid; a
node with both children must store exactly the keccak256 of the concatenated
child hashes, and both children must verify; any other shape is invalid.
The source returns false on hash mismatch before recursing, which the
positive `if` here reproduces. -/
def MerkleTree.verify_node (keccak256 : List Nat → B256) : MerkleNode → Bool
  | .mk _ none none => true
  | .mk h (some left) (some right) =>
      if h = keccak256 (left.hash ++ right.hash) then
        MerkleTree.verify_node keccak256 left && MerkleTree.verify_node keccak256 right
      else false
  | _ => false

/-- `MerkleTree::verify`: check the whole tree from the root. -/
def MerkleTree.verify (keccak256 : List Nat → B256) (t : MerkleTree) : Bool :=
  MerkleTree.verify_node keccak256 t.root

/-- `MerkleTree::build_proof`: the source threads a mutable step vector and a
boolean result, pushing a sibling step only after a recursive call succeeds,
so a `false` result always leaves the vector untouched; the embedding folds
that invariant into `Option`, with `some steps` for a successful search.  The
search checks the target at the current node first, then the left subtree
(appending the right sibling on success), then the right subtree (appending
the left sibling).  The Rust `Result` wrapper has no error path and is
dropped. -/
def MerkleTree.build_proof (node : MerkleNode) (target_hash : B256) : Option (List ProofStep) :=
  if node.hash = target_hash then some []
  else
    match node with
    | .mk _ (some left) (some right) =>
        (match MerkleTree.build_proof left target_hash with
         | some steps => some (steps ++ [ProofStep.Right right.hash])
         | none =>
            (match MerkleTree.build_proof right target_hash with
             | some steps => some (steps ++ [ProofStep.Left left.hash])
             | none => none))
    | _ => none

/-- `MerkleTree::generate_proof`: hash the record, fail if the hash is not a
key of the leaf map, otherwise collect the steps found by `build_proof` (the
source ignores the boolean result, leaving the step vector empty when the
search fails, which `Option.getD` reproduces). -/
def MerkleTree.generate_proof (keccak256 : List Nat → B256) (t : MerkleTree) (data : List Nat) :
    Except MerkleTreeError MerkleProof :=
  let leaf_hash := keccak256 data
  if !(containsKey t.leaves leaf_hash) then
    .error (.InvalidProof ("Data not found in the tree"))
  else
    let proof_steps := (MerkleTree.build_proof t.root leaf_hash).getD []
    .ok { leaf_hash := leaf_hash, proof_steps := proof_steps }

/-
Serialization model.  The crate serializes trees and proofs through serde to
JSON text (`serde_json`).  The JSON text layer itself is external library
code; the embedding models documents as values of the `Json` type below, and
the repository code under verification is the mapping between the data
structures and those documents: the hand-written `Serialize`/`Deserialize`
impls for `MerkleNode` (src/merkle_node.rs), the serde derives for
`MerkleTree`, `MerkleProof` and `ProofStep`, and the `b256_hex` helpers
(src/serialization.rs).  Hex strings are modelled as lists of character
codes, as produced by `alloy_primitives::hex::encode` (lowercase, no 0x
prefix).
-/

/-- JSON document values: null, string, array, object. -/
inductive Json : Type where
  | null : Json
  | str : List Nat → Json
  | arr : List Json → Json
  | obj : List (String × Json) → Json

mutual

/-- Size of a JSON document, used as fuel for the recursive node
deserializer. -/
def jsonSize : Json → Nat
  | .null => 1
  | .str _ => 1
  | .arr elems => 1 + jsonSizeList elems
  | .obj fields => 1 + jsonSizeFields fields

/-- Size of a JSON array body. -/
def jsonSizeList : List Json → Nat
  | [] => 0
  | j :: rest => jsonSize j + jsonSizeList rest

/-- Size of a JSON object body. -/
def jsonSizeFields : List (String × Json) → Nat
  | [] => 0
  | (_, j) :: rest => jsonSize j + jsonSizeFields rest

end

/-- Field lookup in a JSON object, first match wins; missing fields give
`none`, as in the serde field visitor. -/
def lookupField : List (String × Json) → String → Option Json
  | [], _ => none
  | (n, j) :: rest, name => if n = name then some j else lookupField rest name

/-- Low nibble to lowercase hex character code, as in
`alloy_primitives::hex::encode` (0-9 then a-f). -/
def encodeNibble (n : Nat) : Nat :=
  if n < 10 then 48 + n else 87 + n

/-- Hex encoding of a byte string: two lowercase digits per byte, high nibble
first. -/
def hexEncode : List Nat → List Nat
  | [] => []
  | b :: rest => encodeNibble (b / 16) :: encodeNibble (b % 16) :: hexEncode rest

/-- Hex character code to nibble value; accepts 0-9, a-f and A-F as
`alloy_primitives::hex::decode` does. -/
def decodeNibble (c : Nat) : Option Nat :=
  if 48 ≤ c ∧ c ≤ 57 then some (c - 48)
  else if 97 ≤ c ∧ c ≤ 102 then some (c - 87)
  else if 65 ≤ c ∧ c ≤ 70 then some (c - 55)
  else none

/-- Hex decoding: pairs of digits to bytes; odd length or an invalid digit is
a decoding failure. -/
def hexDecode : List Nat → Option (List Nat)
  | [] => some []
  | [_] => none
  | c1 :: c2 :: rest =>
      match decodeNibble c1, decodeNibble c2, hexDecode rest with
      | some hi, some lo, some bytes => some ((16 * hi + lo) :: bytes)
      | _, _, _ => none

/-- Outcome of a deserialization step: a value, a structured serde error, or
a Rust panic.  The panic constructor models `B256::from_slice` aborting on a
slice whose length is not 32; it is what distinguishes the hand-written
`MerkleNode` deserializer from the length-checked `b256_hex` helper. -/
inductive DRes (α : Type) : Type where
  | ok : α → DRes α
  | error : String → DRes α
  | panicked : DRes α

/-- The hand-written `Serialize for MerkleNode`: an object with the hash as a
lowercase hex string and the children serialized in place, an absent child
becoming null (serde serializes `None` as null). -/
def MerkleNode.serialize : MerkleNode → Json
  | .mk h l r =>
      .obj [("hash", .str (hexEncode h)),
            ("left", match l with | none => Json.null | some n => MerkleNode.serialize n),
            ("right", match r with | none => Json.null | some n => MerkleNode.serialize n)]

/-- Child-field classifier for the serde `Option` handling: an absent field
or an explicit null is no child; anything else is a child document to
deserialize. -/
def childJson : Option Json → Option Json
  | none => none
  | some Json.null => none
  | some j => some j

/-- The hand-written `Deserialize for MerkleNode` with explicit fuel (the
recursion is on child documents found by field lookup, so the fuel
`jsonSize` of the document bounds it; the fuel-exhaustion branch is
unreachable at that fuel).  Field order follows the serde helper struct: the
hash string is read (an absent or non-string hash is a structured error),
the optional children are deserialized recursively (null or absent is no
child), then the hash string is hex-decoded (a structured error on bad hex)
and passed to `B256::from_slice`, which panics unless exactly 32 bytes
remain -- the source performs no length check on this path. -/
def MerkleNode.deserializeF : Nat → Json → DRes MerkleNode
  | 0, _ => .error ("recursion limit reached")
  | fuel + 1, Json.obj fields =>
      (match lookupField fields ("hash") with
       | some (Json.str s) =>
          (match (match childJson (lookupField fields ("left")) with
                  | none => DRes.ok Option.none
                  | some jl =>
                      (match MerkleNode.deserializeF fuel jl with
                       | .ok node => DRes.ok (Option.some node)
                       | .error e => DRes.error e
                       | .panicked => DRes.panicked)) with
           | .ok left =>
              (match (match childJson (lookupField fields ("right")) with
                      | none => DRes.ok Option.none
                      | some jr =>
                          (match MerkleNode.deserializeF fuel jr with
                           | .ok node => DRes.ok (Option.some node)
                           | .error e => DRes.error e
                           | .panicked => DRes.panicked)) with
               | .ok right =>
                  (match hexDecode s with
                   | some hash_bytes =>
                      if hash_bytes.length = 32 then .ok (MerkleNode.mk hash_bytes left right)
                      else .panicked
                   | none => .error ("hex decoding failed for hash field"))
               | .error e => .error e
               | .panicked => .panicked)
           | .error e => .error e
           | .panicked => .panicked)
       | some _ => .error ("hash field must be a string")
       | none => .error ("missing field hash"))
  | _ + 1, _ => .error ("MerkleNode document must be an object")

/-- The `Deserialize for MerkleNode` entry point. -/
def MerkleNode.deserialize (j : Json) : DRes MerkleNode :=
  MerkleNode.deserializeF (jsonSize j) j

/-- `MerkleTree::to_json` down to the document level: the serde derive for
`MerkleTree` writes only the root (the leaf map is marked serde(skip)). -/
def MerkleTree.to_json (t : MerkleTree) : Json :=
  .obj [("root", MerkleNode.serialize t.root)]

/-- `MerkleTree::from_json` down to the document level: read the root through
the custom node deserializer; the skipped leaf map comes back as its default,
the empty map. -/
def MerkleTree.from_json (j : Json) : DRes MerkleTree :=
  match j with
  | .obj fields =>
      (match lookupField fields ("root") with
       | some jroot =>
          (match MerkleNode.deserialize jroot with
           | .ok root => .ok { root := root, leaves := [] }
           | .error e => .error e
           | .panicked => .panicked)
       | none => .error ("missing field root"))
  | _ => .error ("MerkleTree document must be an object")

/-- `b256_hex::serialize` from src/serialization.rs: a digest becomes a hex
string. -/
def b256_hex_serialize (bytes : B256) : Json :=
  .str (hexEncode bytes)

/-- `b256_hex::deserialize` from src/serialization.rs: expect a string,
hex-decode it (structured error on failure), and reject any length other
than 32 with the structured error the source raises -- this path never
panics. -/
def b256_hex_deserialize (j : Json) : DRes B256 :=
  match j with
  | .str s =>
      (match hexDecode s with
       | some bytes =>
          if bytes.length = 32 then .ok bytes
          else .error ("Invalid length for B256")
       | none => .error ("hex decoding failed"))
  | _ => .error ("expected a hex string")

/-- Serde serialization of a `ProofStep`: an externally tagged enum whose
payload goes through `b256_hex::serialize`. -/
def ProofStep.serialize : ProofStep → Json
  | .Left h => .obj [("Left", b256_hex_serialize h)]
  | .Right h => .obj [("Right", b256_hex_serialize h)]

/-- Serde deserialization of a `ProofStep`: exactly one known tag, payload
through `b256_hex::deserialize`. -/
def ProofStep.deserialize (j : Json) : DRes ProofStep :=
  match j with
  | .obj [("Left", payload)] =>
      (match b256_hex_deserialize payload with
       | .ok h => .ok (.Left h)
       | .error e => .error e
       | .panicked => .panicked)
  | .obj [("Right", payload)] =>
      (match b256_hex_deserialize payload with
       | .ok h => .ok (.Right h)
       | .error e => .error e
       | .panicked => .panicked)
  | _ => .error ("unknown ProofStep variant")

/-- Deserialize a list of proof steps in order, stopping at the first
failure. -/
def deserializeSteps : List Json → DRes (List ProofStep)
  | [] => .ok []
  | j :: rest =>
      (match ProofStep.deserialize j with
       | .ok st =>
          (match deserializeSteps rest with
           | .ok sts => .ok (st :: sts)
           | .error e => .error e
           | .panicked => .panicked)
       | .error e => .error e
       | .panicked => .panicked)

/-- Serde serialization of a `MerkleProof`: leaf hash through `b256_hex`,
steps as an array. -/
def MerkleProof.serialize (p : MerkleProof) : Json :=
  .obj [("leaf_hash", b256_hex_serialize p.leaf_hash),
        ("proof_steps", .arr (p.proof_steps.map ProofStep.serialize))]

/-- Serde deserialization of a `MerkleProof`. -/
def MerkleProof.deserialize (j : Json) : DRes MerkleProof :=
  match j with
  | .obj fields =>
      (match lookupField fields ("leaf_hash") with
       | some jh =>
          (match b256_hex_deserialize jh with
           | .ok leaf_hash =>
              (match lookupField fields ("proof_steps") with
               | some (Json.arr js) =>
                  (match deserializeSteps js with
                   | .ok steps => .ok { leaf_hash := leaf_hash, proof_steps := steps }
                   | .error e => .error e
                   | .panicked => .panicked)
               | some _ => .error ("proof_steps must be an array")
               | none => .error ("missing field proof_steps"))
           | .error e => .error e
           | .panicked => .panicked)
       | none => .error ("missing field leaf_hash"))
  | _ => .error ("MerkleProof document must be an object")

/-
Well-formedness predicates and auxiliary measures.
-/

/-- Well-formed digest: exactly 32 entries, each a byte value.  The Rust
`B256` type guarantees this by construction. -/
def wfDigest (d : B256) : Bool :=
  d.length == 32 && d.all (fun b => b < 256)

/-- Well-formed node: every hash in the tree is a well-formed digest. -/
def wfNode : MerkleNode → Bool
  | .mk h none none => wfDigest h
  | .mk h (some l) none => wfDigest h && wfNode l
  | .mk h none (some r) => wfDigest h && wfNode r
  | .mk h (some l) (some r) => wfDigest h && wfNode l && wfNode r

/-- Digest carried by a proof step. -/
def stepHash : ProofStep → B256
  | .Left h => h
  | .Right h => h

/-- Well-formed proof: leaf hash and every step digest are well-formed. -/
def wfProof (p : MerkleProof) : Bool :=
  wfDigest p.leaf_hash && p.proof_steps.all (fun st => wfDigest (stepHash st))

/-- Depth of a node (leaves have depth one); a lower bound on the fuel the
node deserializer needs on the serialized form of the node. -/
def nodeDepth : MerkleNode → Nat
  | .mk _ none none => 1
  | .mk _ (some l) none => 1 + nodeDepth l
  | .mk _ none (some r) => 1 + nodeDepth r
  | .mk _ (some l) (some r) => 1 + max (nodeDepth l) (nodeDepth r)

/-- Does the tree below this node (the node included) contain a node with
exactly one child present?  Construction never produces such a node; only
deserialized input can. -/
def hasOneChildNode : MerkleNode → Bool
  | .mk _ none none => false
  | .mk _ (some l) (some r) => hasOneChildNode l || hasOneChildNode r
  | _ => true

/-- Concrete stand-in hash function used to instantiate witness theorems: one
byte summarizing content and length. -/
def tHash1 (l : List Nat) : B256 :=
  [(l.foldl (fun a b => a + b) 0 + l.length) % 256]

/-- A second, everywhere-different stand-in hash function, used where the
keccak256 and sha256 parameters must disagree. -/
def tHash2 (l : List Nat) : B256 :=
  [(l.foldl (fun a b => a + b) 0 + l.length + 1) % 256]

/-
Helper lemmas about tree construction.
-/

/-- Leaf nodes pass the integrity check trivially. -/
theorem verify_node_leaf (keccak256 : List Nat → B256) (d : List Nat) :
    MerkleTree.verify_node keccak256 (MerkleNode.new_leaf keccak256 d) = true := rfl

/-- An internal node built by the constructor passes the integrity check
exactly when both children do. -/
theorem verify_node_new_internal (keccak256 : List Nat → B256) (l r : MerkleNode) :
    MerkleTree.verify_node keccak256 (MerkleNode.new_internal keccak256 l r)
      = (MerkleTree.verify_node keccak256 l && MerkleTree.verify_node keccak256 r) := by
  simp [MerkleNode.new_internal, MerkleTree.verify_node]

/-- One combining pass never lengthens the level. -/
theorem combineLevel_length_le (keccak256 : List Nat → B256) :
    ∀ ns : List MerkleNode, (combineLevel keccak256 ns).length ≤ ns.length
  | [] => by simp [combineLevel]
  | [n] => by simp [combineLevel]
  | a :: b :: rest => by
      have ih := combineLevel_length_le keccak256 rest
      simp only [combineLevel, List.length_cons]
      omega

/-- One combining pass keeps a level non-empty. -/
theorem combineLevel_ne_nil (keccak256 : List Nat → B256) :
    ∀ ns : List MerkleNode, ns ≠ [] → combineLevel keccak256 ns ≠ []
  | [], h => absurd rfl h
  | [n], _ => by simp [combineLevel]
  | a :: b :: rest, _ => by simp [combineLevel]

/-- Unfolding: the builder on an empty level. -/
theorem buildTreeFuel_nil (keccak256 : List Nat → B256) (fuel : Nat) :
    buildTreeFuel keccak256 fuel [] = none := by cases fuel <;> rfl

/-- Unfolding: the builder on a single node. -/
theorem buildTreeFuel_one (keccak256 : List Nat → B256) (fuel : Nat) (n : MerkleNode) :
    buildTreeFuel keccak256 fuel [n] = some n := by cases fuel <;> rfl

/-- Unfolding: the builder on at least two nodes with fuel left. -/
theorem buildTreeFuel_cons (keccak256 : List Nat → B256) (fuel : Nat) (a b : MerkleNode)
    (rest : List MerkleNode) :
    buildTreeFuel keccak256 (fuel + 1) (a :: b :: rest)
      = buildTreeFuel keccak256 fuel (combineLevel keccak256 (a :: b :: rest)) := rfl

/-- With fuel at least one short of covering the level length, the
fuel-based builder always returns a root on non-empty input. -/
theorem buildTreeFuel_some (keccak256 : List Nat → B256) :
    ∀ (fuel : Nat) (ns : List MerkleNode), ns ≠ [] → ns.length ≤ fuel + 1 →
      ∃ r, buildTreeFuel keccak256 fuel ns = some r
  | _, [], h, _ => absurd rfl h
  | fuel, [n], _, _ => ⟨n, buildTreeFuel_one keccak256 fuel n⟩
  | 0, a :: b :: rest, _, hlen => by simp at hlen
  | fuel + 1, a :: b :: rest, _, hlen => by
      have hne := combineLevel_ne_nil keccak256 (a :: b :: rest) (by simp)
      have hle := combineLevel_length_le keccak256 rest
      have hstep : (combineLevel keccak256 (a :: b :: rest)).length ≤ fuel + 1 := by
        simp only [combineLevel, List.length_cons] at *
        omega
      have ih := buildTreeFuel_some keccak256 fuel (combineLevel keccak256 (a :: b :: rest)) hne hstep
      simpa [buildTreeFuel_cons] using ih

/-- One combining pass preserves node-level integrity. -/
theorem combineLevel_verified (keccak256 : List Nat → B256) :
    ∀ ns : List MerkleNode, (∀ n ∈ ns, MerkleTree.verify_node keccak256 n = true) →
      ∀ m ∈ combineLevel keccak256 ns, MerkleTree.verify_node keccak256 m = true
  | [], _, m, hm => by simp [combineLevel] at hm
  | [n], h, m, hm => by
      have hmn : m = n := by simpa [combineLevel] using hm
      rw [hmn]
      exact h n (by simp)
  | a :: b :: rest, h, m, hm => by
      simp only [combineLevel, List.mem_cons] at hm
      rcases hm with hm | hm
      · subst hm
        rw [verify_node_new_internal]
        have ha := h a (by simp)
        have hb := h b (by simp)
        simp [ha, hb]
      · exact combineLevel_verified keccak256 rest (fun n hn => h n (by simp [hn])) m hm

/-- Any root the fuel-based builder returns from a level of valid nodes is
itself valid. -/
theorem buildTreeFuel_verified (keccak256 : List Nat → B256) :
    ∀ (fuel : Nat) (ns : List MerkleNode) (r : MerkleNode),
      (∀ n ∈ ns, MerkleTree.verify_node keccak256 n = true) →
      buildTreeFuel keccak256 fuel ns = some r → MerkleTree.verify_node keccak256 r = true
  | _, [], r, _, h => by rw [buildTreeFuel_nil] at h; exact absurd h (by simp)
  | fuel, [n], r, hall, h => by
      rw [buildTreeFuel_one] at h
      have hrn : n = r := Option.some.inj h
      rw [← hrn]
      exact hall n (by simp)
  | 0, a :: b :: rest, r, _, h => by exact absurd h (by simp [buildTreeFuel])
  | fuel + 1, a :: b :: rest, r, hall, h => by
      rw [buildTreeFuel_cons] at h
      exact buildTreeFuel_verified keccak256 fuel (combineLevel keccak256 (a :: b :: rest)) r
        (combineLevel_verified keccak256 (a :: b :: rest) hall) h

/-- Helper for claim C10: the integrity check rejects any subtree containing
a node with exactly one child. -/
theorem verify_node_false_of_one_child (keccak256 : List Nat → B256) :
    ∀ n : MerkleNode, hasOneChildNode n = true → MerkleTree.verify_node keccak256 n = false
  | .mk _ none none, hn => by simp [hasOneChildNode] at hn
  | .mk _ (some _) none, _ => rfl
  | .mk _ none (some _), _ => rfl
  | .mk h (some l) (some r), hn => by
      simp only [hasOneChildNode, Bool.or_eq_true] at hn
      simp only [MerkleTree.verify_node]
      rcases hn with hn | hn
      · rw [verify_node_false_of_one_child keccak256 l hn]
        simp
      · rw [verify_node_false_of_one_child keccak256 r hn]
        simp

/-- C4: for every record list accepted by construction, the integrity check
run immediately after construction returns true -- every internal node at
every level stores the combiner of its two child digests. -/
theorem c4_verify_holds_after_construction (keccak256 : List Nat → B256)
    (data : List (List Nat)) (t : MerkleTree)
    (h : MerkleTree.new keccak256 data = .ok t) :
    MerkleTree.verify keccak256 t = true := by
  by_cases hd : data = []
  · simp [MerkleTree.new, hd] at h
  · simp only [MerkleTree.new, if_neg hd] at h
    cases hb : MerkleTree.build_tree_recursive keccak256
        (data.map fun datum => MerkleNode.new_leaf keccak256 datum) with
    | none => rw [hb] at h; simp at h
    | some root =>
        rw [hb] at h
        simp only [Except.ok.injEq] at h
        have hleaves : ∀ n ∈ data.map (fun datum => MerkleNode.new_leaf keccak256 datum),
            MerkleTree.verify_node keccak256 n = true := by
          intro n hn
          simp only [List.mem_map] at hn
          obtain ⟨d, _, rfl⟩ := hn
          exact verify_node_leaf keccak256 d
        have hroot := buildTreeFuel_verified keccak256 _ _ root hleaves hb
        rw [← h]
        exact hroot

/-- Witness for C4: the two-record tree over [[1]], [[2]] under the stand-in
hash passes the integrity check. -/
theorem c4_witness :
    MerkleTree.verify tHash1
      { root := MerkleNode.mk [7] (some (MerkleNode.mk [2] none none))
          (some (MerkleNode.mk [3] none none)),
        leaves := [([2], [1]), ([3], [2])] } = true :=
  c4_verify_holds_after_construction tHash1 [[1], [2]] _ rfl

/-- C9: tree construction returns the empty-input error exactly on the empty
record list, and returns a tree on every non-empty record list. -/
theorem c9_new_empty_iff_error (keccak256 : List Nat → B256) (data : List (List Nat)) :
    (MerkleTree.new keccak256 data = .error .EmptyData ↔ data = [])
      ∧ (data ≠ [] → ∃ t, MerkleTree.new keccak256 data = .ok t) := by
  by_cases hd : data = []
  · subst hd
    exact ⟨by simp [MerkleTree.new], fun h => absurd rfl h⟩
  · have hne : data.map (fun datum => MerkleNode.new_leaf keccak256 datum) ≠ [] := by
      simpa using hd
    obtain ⟨r, hr⟩ := buildTreeFuel_some keccak256 _ _ hne (Nat.le_succ _)
    have hok : MerkleTree.new keccak256 data
        = .ok { root := r,
                leaves := data.foldl (fun m datum => insertLeaf m (keccak256 datum) datum) [] } := by
      simp only [MerkleTree.new, if_neg hd]
      rw [show MerkleTree.build_tree_recursive keccak256
            (data.map fun datum => MerkleNode.new_leaf keccak256 datum) = some r from hr]
    refine ⟨⟨fun h => ?_, fun h => absurd h hd⟩, fun _ => ⟨_, hok⟩⟩
    rw [hok] at h
    exact absurd h (by simp)

/-- Witness for C9: a one-record list builds, the empty list gives the
empty-input error. -/
theorem c9_witness :
    (∃ t, MerkleTree.new tHash1 [[1]] = .ok t)
      ∧ MerkleTree.new tHash1 [] = .error .EmptyData :=
  ⟨(c9_new_empty_iff_error tHash1 [[1]]).2 (by decide),
   (c9_new_empty_iff_error tHash1 []).1.mpr rfl⟩

/-- C6: proof verification always returns a boolean inside the success
constructor; no input reaches an error. -/
theorem c6_proof_verification_never_errors (sha256 : List Nat → B256) (p : MerkleProof)
    (root_hash : B256) :
    ∃ b : Bool, MerkleProof.verify sha256 p root_hash = .ok b :=
  ⟨_, rfl⟩

/-- C8: proof generation returns the record-not-found error exactly when the
leaf hash of the target is absent from the leaf index, and otherwise returns
a proof whose leaf digest is the leaf hash of the target. -/
theorem c8_generate_proof_not_found_iff_absent (keccak256 : List Nat → B256)
    (t : MerkleTree) (data : List Nat) :
    (MerkleTree.generate_proof keccak256 t data
        = .error (.InvalidProof ("Data not found in the tree"))
      ↔ containsKey t.leaves (keccak256 data) = false)
    ∧ (containsKey t.leaves (keccak256 data) = true →
        ∃ steps, MerkleTree.generate_proof keccak256 t data
          = .ok { leaf_hash := keccak256 data, proof_steps := steps }) := by
  by_cases hc : containsKey t.leaves (keccak256 data) = true
  · have hok : MerkleTree.generate_proof keccak256 t data
        = .ok { leaf_hash := keccak256 data,
                proof_steps := (MerkleTree.build_proof t.root (keccak256 data)).getD [] } := by
      simp [MerkleTree.generate_proof, hc]
    refine ⟨⟨fun h => ?_, fun h => ?_⟩, fun _ => ⟨_, hok⟩⟩
    · rw [hok] at h
      exact absurd h (by simp)
    · rw [hc] at h
      exact absurd h (by simp)
  · have hcf : containsKey t.leaves (keccak256 data) = false := by
      simpa using hc
    have herr : MerkleTree.generate_proof keccak256 t data
        = .error (.InvalidProof ("Data not found in the tree")) := by
      simp [MerkleTree.generate_proof, hcf]
    exact ⟨⟨fun _ => hcf, fun _ => herr⟩, fun h => absurd h hc⟩

/-- Witness for C8: in the one-record tree over [[1]], generation succeeds
for [1] and fails with the record-not-found error for [5]. -/
theorem c8_witness :
    (∃ steps, MerkleTree.generate_proof tHash1
        { root := MerkleNode.mk [2] none none, leaves := [([2], [1])] } [1]
        = .ok { leaf_hash := tHash1 [1], proof_steps := steps })
    ∧ MerkleTree.generate_proof tHash1
        { root := MerkleNode.mk [2] none none, leaves := [([2], [1])] } [5]
        = .error (.InvalidProof ("Data not found in the tree")) :=
  ⟨(c8_generate_proof_not_found_iff_absent tHash1 _ [1]).2 (by decide),
   (c8_generate_proof_not_found_iff_absent tHash1 _ [5]).1.mpr (by decide)⟩

/-- C10: the integrity check returns false on any tree containing a node
with exactly one child present, a shape only deserialized input can carry. -/
theorem c10_verify_false_on_one_child_node (keccak256 : List Nat → B256) (t : MerkleTree)
    (h : hasOneChildNode t.root = true) :
    MerkleTree.verify keccak256 t = false :=
  verify_node_false_of_one_child keccak256 t.root h

/-- Witness for C10: a root with only a left child is rejected. -/
theorem c10_witness :
    hasOneChildNode (MerkleNode.mk [0] (some (MerkleNode.mk [1] none none)) none) = true
    ∧ MerkleTree.verify tHash1
        { root := MerkleNode.mk [0] (some (MerkleNode.mk [1] none none)) none,
          leaves := [] } = false :=
  ⟨by decide, c10_verify_false_on_one_child_node tHash1 _ (by decide)⟩

/-- C5: building from a single record gives a childless root carrying the
leaf hash, proof generation for that record gives zero steps, and verifying
the empty-step proof against the root digest succeeds. -/
theorem c5_single_record_tree (keccak256 sha256 : List Nat → B256) (A : List Nat) :
    MerkleTree.new keccak256 [A]
      = .ok { root := MerkleNode.mk (keccak256 A) none none,
              leaves := [(keccak256 A, A)] }
    ∧ MerkleTree.generate_proof keccak256
        { root := MerkleNode.mk (keccak256 A) none none,
          leaves := [(keccak256 A, A)] } A
      = .ok { leaf_hash := keccak256 A, proof_steps := [] }
    ∧ MerkleProof.verify sha256
        { leaf_hash := keccak256 A, proof_steps := [] } (keccak256 A)
      = .ok true := by
  refine ⟨?_, ?_, ?_⟩
  · simp [MerkleTree.new, MerkleTree.build_tree_recursive, buildTreeFuel_one,
      MerkleNode.new_leaf, insertLeaf]
  · simp [MerkleTree.generate_proof, containsKey, MerkleTree.build_proof, MerkleNode.hash]
  · simp [MerkleProof.verify]

/-- C1 (code bug exhibit): on a two-record tree the generated proof for the
first record carries the sibling digest, and replaying it in
`MerkleProof.verify` recombines with sha256 while the stored root digest was
combined with keccak256 -- verification therefore returns true exactly when
the two hash functions agree on the concatenated child digests.  The real
Keccak-256 and SHA-256 disagree there, so the program answers false where
the claim requires true. -/
theorem c1_generated_proof_verification_recombines_with_sha256
    (keccak256 sha256 : List Nat → B256) (A B : List Nat)
    (hAB : keccak256 A ≠ keccak256 B)
    (hroot : keccak256 (keccak256 A ++ keccak256 B) ≠ keccak256 A) :
    MerkleTree.new keccak256 [A, B]
      = .ok { root := MerkleNode.mk (keccak256 (keccak256 A ++ keccak256 B))
                (some (MerkleNode.mk (keccak256 A) none none))
                (some (MerkleNode.mk (keccak256 B) none none)),
              leaves := [(keccak256 A, A), (keccak256 B, B)] }
    ∧ MerkleTree.generate_proof keccak256
        { root := MerkleNode.mk (keccak256 (keccak256 A ++ keccak256 B))
            (some (MerkleNode.mk (keccak256 A) none none))
            (some (MerkleNode.mk (keccak256 B) none none)),
          leaves := [(keccak256 A, A), (keccak256 B, B)] } A
      = .ok { leaf_hash := keccak256 A, proof_steps := [ProofStep.Right (keccak256 B)] }
    ∧ MerkleProof.verify sha256
        { leaf_hash := keccak256 A, proof_steps := [ProofStep.Right (keccak256 B)] }
        (keccak256 (keccak256 A ++ keccak256 B))
      = .ok (sha256 (keccak256 A ++ keccak256 B) == keccak256 (keccak256 A ++ keccak256 B)) := by
  have hbeqAB : (keccak256 A == keccak256 B) = false := beq_eq_false_iff_ne.mpr hAB
  refine ⟨?_, ?_, ?_⟩
  · have hbt : MerkleTree.build_tree_recursive keccak256
        [MerkleNode.mk (keccak256 A) none none, MerkleNode.mk (keccak256 B) none none]
        = some (MerkleNode.mk (keccak256 (keccak256 A ++ keccak256 B))
            (some (MerkleNode.mk (keccak256 A) none none))
            (some (MerkleNode.mk (keccak256 B) none none))) := rfl
    simp [MerkleTree.new, hbt, MerkleNode.new_leaf, insertLeaf, hbeqAB]
  · simp [MerkleTree.generate_proof, containsKey, MerkleTree.build_proof, MerkleNode.hash, hroot]
  · simp [MerkleProof.verify]

/-- Witness for C1: with the stand-in hash functions, which disagree
everywhere, the end-to-end verification of the generated proof returns
false. -/
theorem c1_witness :
    tHash1 [0] ≠ tHash1 [1]
    ∧ MerkleProof.verify tHash2
        { leaf_hash := tHash1 [0], proof_steps := [ProofStep.Right (tHash1 [1])] }
        (tHash1 (tHash1 [0] ++ tHash1 [1]))
      = .ok (tHash2 (tHash1 [0] ++ tHash1 [1]) == tHash1 (tHash1 [0] ++ tHash1 [1]))
    ∧ (tHash2 (tHash1 [0] ++ tHash1 [1]) == tHash1 (tHash1 [0] ++ tHash1 [1])) = false :=
  ⟨by decide,
   (c1_generated_proof_verification_recombines_with_sha256 tHash1 tHash2 [0] [1]
      (by decide) (by decide)).2.2,
   by decide⟩

/-- C3: building from three records combines the first two into a parent,
promotes the third leaf unchanged to the next level, combines parent and
promoted leaf into the root, and the generated proof for the third record is
exactly one sibling-on-left step carrying the parent digest. -/
theorem c3_three_record_promotion_and_proof_shape (keccak256 : List Nat → B256)
    (A B C : List Nat)
    (hAB : keccak256 A ≠ keccak256 B)
    (hAC : keccak256 A ≠ keccak256 C)
    (hBC : keccak256 B ≠ keccak256 C)
    (hPC : keccak256 (keccak256 A ++ keccak256 B) ≠ keccak256 C)
    (hRC : keccak256 (keccak256 (keccak256 A ++ keccak256 B) ++ keccak256 C) ≠ keccak256 C) :
    MerkleTree.new keccak256 [A, B, C]
      = .ok { root := MerkleNode.mk
                (keccak256 (keccak256 (keccak256 A ++ keccak256 B) ++ keccak256 C))
                (some (MerkleNode.mk (keccak256 (keccak256 A ++ keccak256 B))
                  (some (MerkleNode.mk (keccak256 A) none none))
                  (some (MerkleNode.mk (keccak256 B) none none))))
                (some (MerkleNode.mk (keccak256 C) none none)),
              leaves := [(keccak256 A, A), (keccak256 B, B), (keccak256 C, C)] }
    ∧ MerkleTree.generate_proof keccak256
        { root := MerkleNode.mk
            (keccak256 (keccak256 (keccak256 A ++ keccak256 B) ++ keccak256 C))
            (some (MerkleNode.mk (keccak256 (keccak256 A ++ keccak256 B))
              (some (MerkleNode.mk (keccak256 A) none none))
              (some (MerkleNode.mk (keccak256 B) none none))))
            (some (MerkleNode.mk (keccak256 C) none none)),
          leaves := [(keccak256 A, A), (keccak256 B, B), (keccak256 C, C)] } C
      = .ok { leaf_hash := keccak256 C,
              proof_steps := [ProofStep.Left (keccak256 (keccak256 A ++ keccak256 B))] } := by
  have hbeqAB : (keccak256 A == keccak256 B) = false := beq_eq_false_iff_ne.mpr hAB
  have hbeqAC : (keccak256 A == keccak256 C) = false := beq_eq_false_iff_ne.mpr hAC
  have hbeqBC : (keccak256 B == keccak256 C) = false := beq_eq_false_iff_ne.mpr hBC
  refine ⟨?_, ?_⟩
  · have hbt : MerkleTree.build_tree_recursive keccak256
        [MerkleNode.mk (keccak256 A) none none, MerkleNode.mk (keccak256 B) none none,
         MerkleNode.mk (keccak256 C) none none]
        = some (MerkleNode.mk
            (keccak256 (keccak256 (keccak256 A ++ keccak256 B) ++ keccak256 C))
            (some (MerkleNode.mk (keccak256 (keccak256 A ++ keccak256 B))
              (some (MerkleNode.mk (keccak256 A) none none))
              (some (MerkleNode.mk (keccak256 B) none none))))
            (some (MerkleNode.mk (keccak256 C) none none))) := rfl
    simp [MerkleTree.new, hbt, MerkleNode.new_leaf, insertLeaf, hbeqAB, hbeqAC, hbeqBC]
  · simp [MerkleTree.generate_proof, containsKey, MerkleTree.build_proof, MerkleNode.hash,
      hAC, hBC, hbeqAC, hbeqBC, hPC, hRC]

/-- Witness for C3 at three concrete records under the stand-in hash. -/
theorem c3_witness :
    tHash1 [0] ≠ tHash1 [1]
    ∧ MerkleTree.generate_proof tHash1
        { root := MerkleNode.mk
            (tHash1 (tHash1 (tHash1 [0] ++ tHash1 [1]) ++ tHash1 [2]))
            (some (MerkleNode.mk (tHash1 (tHash1 [0] ++ tHash1 [1]))
              (some (MerkleNode.mk (tHash1 [0]) none none))
              (some (MerkleNode.mk (tHash1 [1]) none none))))
            (some (MerkleNode.mk (tHash1 [2]) none none)),
          leaves := [(tHash1 [0], [0]), (tHash1 [1], [1]), (tHash1 [2], [2])] } [2]
      = .ok { leaf_hash := tHash1 [2],
              proof_steps := [ProofStep.Left (tHash1 (tHash1 [0] ++ tHash1 [1]))] } :=
  ⟨by decide,
   (c3_three_record_promotion_and_proof_shape tHash1 [0] [1] [2]
      (by decide) (by decide) (by decide) (by decide) (by decide)).2⟩

/-- C2 (code bug exhibit): deserializing a Tree document whose hash field is
valid hexadecimal but decodes to one byte reaches the panic of
`B256::from_slice` in the hand-written node deserializer, while the same
digest string through the length-checked `b256_hex` path used by Proof
documents yields a structured error.  The document below is the JSON text
with the two-character root hash 00 (character codes 48, 48). -/
theorem c2_tree_digest_wrong_length_panics_while_proof_path_errors :
    MerkleTree.from_json
        (Json.obj [("root", Json.obj [("hash", Json.str [48, 48]),
          ("left", Json.null), ("right", Json.null)])])
      = DRes.panicked
    ∧ b256_hex_deserialize (Json.str [48, 48]) = DRes.error ("Invalid length for B256") :=
  ⟨rfl, rfl⟩

/-
Round-trip lemmas for the serialization model.
-/

/-- Encoding then decoding a nibble is the identity. -/
theorem decodeNibble_encodeNibble : ∀ n < 16, decodeNibble (encodeNibble n) = some n := by
  decide

/-- Hex decoding inverts hex encoding on byte strings. -/
theorem hexDecode_hexEncode : ∀ bs : List Nat, (∀ b ∈ bs, b < 256) →
    hexDecode (hexEncode bs) = some bs
  | [], _ => rfl
  | b :: rest, h => by
      have hb : b < 256 := h b (by simp)
      have hdiv : b / 16 < 16 := by omega
      have hmod : b % 16 < 16 := Nat.mod_lt _ (by norm_num)
      have ih := hexDecode_hexEncode rest (fun x hx => h x (by simp [hx]))
      simp only [hexEncode, hexDecode]
      rw [decodeNibble_encodeNibble _ hdiv, decodeNibble_encodeNibble _ hmod, ih]
      simp [Nat.div_add_mod]

/-- Unpacking a well-formed digest. -/
theorem wfDigest_spec (d : B256) (h : wfDigest d = true) :
    d.length = 32 ∧ ∀ b ∈ d, b < 256 := by
  simp only [wfDigest, Bool.and_eq_true, beq_iff_eq, List.all_eq_true,
    decide_eq_true_eq] at h
  exact h

/-- The `b256_hex` pair round-trips on well-formed digests. -/
theorem b256_hex_roundtrip (d : B256) (h : wfDigest d = true) :
    b256_hex_deserialize (b256_hex_serialize d) = .ok d := by
  obtain ⟨hlen, hlt⟩ := wfDigest_spec d h
  simp [b256_hex_serialize, b256_hex_deserialize, hexDecode_hexEncode d hlt, hlen]

/-- Lookup finds the field at the head of the object. -/
theorem lookupField_cons_self (name : String) (j : Json) (rest : List (String × Json)) :
    lookupField ((name, j) :: rest) name = some j := by
  simp [lookupField]

/-- Lookup skips a head field with a different name. -/
theorem lookupField_cons_ne (n : String) (j : Json) (rest : List (String × Json))
    (name : String) (h : n ≠ name) :
    lookupField ((n, j) :: rest) name = lookupField rest name := by
  simp [lookupField, h]

/-- A serialized node is never the null document, so the serde child
classifier passes it through. -/
theorem childJson_serialize (n : MerkleNode) :
    childJson (some (MerkleNode.serialize n)) = some (MerkleNode.serialize n) := by
  cases n with
  | mk h l r =>
      cases l <;> cases r <;> simp [MerkleNode.serialize, childJson]

/-- The document size of a serialized node covers its depth, so `jsonSize`
is adequate fuel for the node deserializer. -/
theorem nodeDepth_le_jsonSize : ∀ n : MerkleNode, nodeDepth n ≤ jsonSize (MerkleNode.serialize n)
  | .mk h none none => by
      simp [nodeDepth, MerkleNode.serialize, jsonSize, jsonSizeFields]
  | .mk h (some l) none => by
      have ih := nodeDepth_le_jsonSize l
      simp only [nodeDepth, MerkleNode.serialize, jsonSize, jsonSizeFields] at *
      omega
  | .mk h none (some r) => by
      have ih := nodeDepth_le_jsonSize r
      simp only [nodeDepth, MerkleNode.serialize, jsonSize, jsonSizeFields] at *
      omega
  | .mk h (some l) (some r) => by
      have ihl := nodeDepth_le_jsonSize l
      have ihr := nodeDepth_le_jsonSize r
      simp only [nodeDepth, MerkleNode.serialize, jsonSize, jsonSizeFields] at *
      omega

/-- An explicit null child is no child. -/
theorem childJson_null : childJson (some Json.null) = none := rfl

/-- The fueled node deserializer inverts the node serializer given adequate
fuel and well-formed digests. -/
theorem node_roundtrip : ∀ (n : MerkleNode) (fuel : Nat), nodeDepth n ≤ fuel →
    wfNode n = true → MerkleNode.deserializeF fuel (MerkleNode.serialize n) = .ok n
  | .mk h l r, 0, hf, _ => by
      exact absurd hf (by cases l <;> cases r <;> simp [nodeDepth])
  | .mk h none none, fuel + 1, _, hwf => by
      obtain ⟨hlen, hlt⟩ := wfDigest_spec h (by simpa [wfNode] using hwf)
      simp [MerkleNode.serialize, MerkleNode.deserializeF, lookupField, childJson,
        hexDecode_hexEncode h hlt, hlen]
  | .mk h (some l) none, fuel + 1, hf, hwf => by
      have hfl : nodeDepth l ≤ fuel := by
        simp only [nodeDepth] at hf
        omega
      have hw : wfDigest h = true ∧ wfNode l = true := by
        simpa [wfNode, Bool.and_eq_true] using hwf
      obtain ⟨hlen, hlt⟩ := wfDigest_spec h hw.1
      have ihl := node_roundtrip l fuel hfl hw.2
      simp [MerkleNode.serialize, MerkleNode.deserializeF, lookupField, childJson_null,
        childJson_serialize, ihl, hexDecode_hexEncode h hlt, hlen]
  | .mk h none (some r), fuel + 1, hf, hwf => by
      have hfr : nodeDepth r ≤ fuel := by
        simp only [nodeDepth] at hf
        omega
      have hw : wfDigest h = true ∧ wfNode r = true := by
        simpa [wfNode, Bool.and_eq_true] using hwf
      obtain ⟨hlen, hlt⟩ := wfDigest_spec h hw.1
      have ihr := node_roundtrip r fuel hfr hw.2
      simp [MerkleNode.serialize, MerkleNode.deserializeF, lookupField, childJson_null,
        childJson_serialize, ihr, hexDecode_hexEncode h hlt, hlen]
  | .mk h (some l) (some r), fuel + 1, hf, hwf => by
      have hfl : nodeDepth l ≤ fuel := by
        simp only [nodeDepth] at hf
        omega
      have hfr : nodeDepth r ≤ fuel := by
        simp only [nodeDepth] at hf
        omega
      have hw : (wfDigest h = true ∧ wfNode l = true) ∧ wfNode r = true := by
        simpa [wfNode, Bool.and_eq_true, and_assoc] using hwf
      obtain ⟨hlen, hlt⟩ := wfDigest_spec h hw.1.1
      have ihl := node_roundtrip l fuel hfl hw.1.2
      have ihr := node_roundtrip r fuel hfr hw.2
      simp [MerkleNode.serialize, MerkleNode.deserializeF, lookupField, childJson_null,
        childJson_serialize, ihl, ihr, hexDecode_hexEncode h hlt, hlen]

/-- Serde round trip for a single proof step. -/
theorem step_roundtrip (st : ProofStep) (h : wfDigest (stepHash st) = true) :
    ProofStep.deserialize (ProofStep.serialize st) = .ok st := by
  cases st with
  | Left d =>
      have hd : wfDigest d = true := by simpa [stepHash] using h
      simp [ProofStep.serialize, ProofStep.deserialize, b256_hex_roundtrip d hd]
  | Right d =>
      have hd : wfDigest d = true := by simpa [stepHash] using h
      simp [ProofStep.serialize, ProofStep.deserialize, b256_hex_roundtrip d hd]

/-- Serde round trip for a step list, in order. -/
theorem steps_roundtrip : ∀ sts : List ProofStep,
    (∀ st ∈ sts, wfDigest (stepHash st) = true) →
    deserializeSteps (sts.map ProofStep.serialize) = .ok sts
  | [], _ => rfl
  | st :: rest, h => by
      have h1 := step_roundtrip st (h st (by simp))
      have h2 := steps_roundtrip rest (fun x hx => h x (by simp [hx]))
      simp [deserializeSteps, h1, h2]

/-- Serde round trip for a whole proof. -/
theorem proof_roundtrip (p : MerkleProof) (hp : wfProof p = true) :
    MerkleProof.deserialize (MerkleProof.serialize p) = .ok p := by
  have hl : wfDigest p.leaf_hash = true := by
    simp only [wfProof, Bool.and_eq_true] at hp
    exact hp.1
  have hs : ∀ st ∈ p.proof_steps, wfDigest (stepHash st) = true := by
    simp only [wfProof, Bool.and_eq_true, List.all_eq_true] at hp
    exact hp.2
  simp [MerkleProof.serialize, MerkleProof.deserialize, lookupField,
    b256_hex_roundtrip p.leaf_hash hl, steps_roundtrip p.proof_steps hs]

/-- C7: serializing a tree to its document and deserializing it back returns
a tree with the identical root node (the skipped leaf index returns as its
default, the empty map), and serializing a proof and deserializing it back
returns an equal proof -- same leaf digest, same steps in the same order. -/
theorem c7_serialization_round_trip (t : MerkleTree) (p : MerkleProof)
    (ht : wfNode t.root = true) (hp : wfProof p = true) :
    MerkleTree.from_json (MerkleTree.to_json t) = .ok { root := t.root, leaves := [] }
    ∧ MerkleProof.deserialize (MerkleProof.serialize p) = .ok p := by
  refine ⟨?_, proof_roundtrip p hp⟩
  have hroot := node_roundtrip t.root (jsonSize (MerkleNode.serialize t.root))
    (nodeDepth_le_jsonSize t.root) ht
  simp [MerkleTree.to_json, MerkleTree.from_json, lookupField, MerkleNode.deserialize, hroot]

/-- Witness for C7 on a concrete one-node tree and a one-step proof with
32-byte digests. -/
theorem c7_witness :
    wfNode (MerkleNode.mk (List.replicate 32 0) none none) = true
    ∧ (MerkleTree.from_json (MerkleTree.to_json
          { root := MerkleNode.mk (List.replicate 32 0) none none, leaves := [] })
        = .ok { root := MerkleNode.mk (List.replicate 32 0) none none, leaves := [] }
      ∧ MerkleProof.deserialize (MerkleProof.serialize
          { leaf_hash := List.replicate 32 5,
            proof_steps := [ProofStep.Left (List.replicate 32 7)] })
        = .ok { leaf_hash := List.replicate 32 5,
                proof_steps := [ProofStep.Left (List.replicate 32 7)] }) :=
  ⟨by decide, c7_serialization_round_trip _ _ (by decide) (by decide)⟩
